import Mathlib

/-!
Verification of the AppFlowy OT delta core and the surrounding
view/user-session controllers, shallowly embedded from the Rust sources
`shared-lib/lib-ot/src/core/delta/builder.rs`,
`frontend/rust-lib/flowy-core/src/services/view/controller.rs` and
`frontend/rust-lib/flowy-user/src/services/user/user_session.rs`.
-/

/-! ## Attributes, operations and deltas (lib-ot data model) -/

/-- Formatting attributes: an ordered mapping from attribute key to value
(spec section 3 and 6). The builder claims only depend on equality of
attribute sets and on emptiness, so values are strings here. -/
abbrev Attrs := List (String × String)

/-- A retain (or insert) is plain when its attribute set is empty;
mirrors `Retain::is_plain` used by `trim` in `builder.rs`. -/
def Attrs.is_plain (a : Attrs) : Bool := a.isEmpty

/-- The atomic edit primitive of lib-ot: `Operation::Delete`,
`Operation::Retain` and `Operation::Insert`. -/
inductive Operation where
  | Delete (n : Nat)
  | Retain (n : Nat) (attributes : Attrs)
  | Insert (s : String) (attributes : Attrs)
deriving DecidableEq, Repr

/-- Length of one operation: character count of the content for an
insert, the count for delete/retain. -/
def Operation.len : Operation → Nat
  | .Delete n => n
  | .Retain n _ => n
  | .Insert s _ => s.length

/-- A delta: an ordered sequence of operations. -/
structure Delta where
  ops : List Operation
deriving DecidableEq, Repr

/-- Rust `Delta::new()`: the empty delta. -/
def Delta.new : Delta := ⟨[]⟩

/-- Modelled from the spec: `Delta::retain` is not under `src/` (only its
caller `DeltaBuilder::retain` is). Spec section 4.4: on every append,
consecutive Retains with identical attributes merge into one with summed
length; a length argument of 0 is a no-op. -/
def Delta.retain (d : Delta) (n : Nat) (attributes : Attrs) : Delta :=
  if n = 0 then d
  else
    match d.ops.getLast? with
    | some (.Retain m a) =>
        if a = attributes then ⟨d.ops.dropLast ++ [.Retain (m + n) attributes]⟩
        else ⟨d.ops ++ [.Retain n attributes]⟩
    | _ => ⟨d.ops ++ [.Retain n attributes]⟩

/-- Modelled from the spec: `Delta::delete` is not under `src/` (only its
caller `DeltaBuilder::delete` is). Spec section 4.4: a Delete merges with
an adjacent Delete but never with an adjacent Insert (the two remain
distinct in order); a length argument of 0 is a no-op. -/
def Delta.delete (d : Delta) (n : Nat) : Delta :=
  if n = 0 then d
  else
    match d.ops.getLast? with
    | some (.Delete m) => ⟨d.ops.dropLast ++ [.Delete (m + n)]⟩
    | _ => ⟨d.ops ++ [.Delete n]⟩

/-- Modelled from the spec: `Delta::insert` is not under `src/` (only its
caller `DeltaBuilder::insert` is). Spec section 4.4: consecutive Inserts
with identical attributes merge; a Delete never merges with an adjacent
Insert; an empty string is a no-op. -/
def Delta.insert (d : Delta) (s : String) (attributes : Attrs) : Delta :=
  if s = "" then d
  else
    match d.ops.getLast? with
    | some (.Insert t a) =>
        if a = attributes then ⟨d.ops.dropLast ++ [.Insert (t ++ s) attributes]⟩
        else ⟨d.ops ++ [.Insert s attributes]⟩
    | _ => ⟨d.ops ++ [.Insert s attributes]⟩

/-! ## The delta builder (`builder.rs`) -/

/-- Rust `DeltaBuilder`: accumulates a delta (`builder.rs` lines 3-5). -/
structure DeltaBuilder where
  delta : Delta
deriving DecidableEq, Repr

/-- Rust `DeltaBuilder::new()` / `default()`. -/
def DeltaBuilder.new : DeltaBuilder := ⟨Delta.new⟩

/-- Rust `DeltaBuilder::retain_with_attributes`. -/
def DeltaBuilder.retain_with_attributes (b : DeltaBuilder) (n : Nat) (attributes : Attrs) :
    DeltaBuilder := ⟨b.delta.retain n attributes⟩

/-- Rust `DeltaBuilder::retain` (uses the default, empty attributes). -/
def DeltaBuilder.retain (b : DeltaBuilder) (n : Nat) : DeltaBuilder :=
  ⟨b.delta.retain n []⟩

/-- Rust `DeltaBuilder::delete`. -/
def DeltaBuilder.delete (b : DeltaBuilder) (n : Nat) : DeltaBuilder :=
  ⟨b.delta.delete n⟩

/-- Rust `DeltaBuilder::insert_with_attributes`. -/
def DeltaBuilder.insert_with_attributes (b : DeltaBuilder) (s : String) (attributes : Attrs) :
    DeltaBuilder := ⟨b.delta.insert s attributes⟩

/-- Rust `DeltaBuilder::insert` (uses the default, empty attributes). -/
def DeltaBuilder.insert (b : DeltaBuilder) (s : String) : DeltaBuilder :=
  ⟨b.delta.insert s []⟩

/-- The free function `trim` (`builder.rs` lines 53-65): remove the last
operation exactly when it is a plain Retain. -/
def Delta.trim (d : Delta) : Delta :=
  let remove_last :=
    match d.ops.getLast? with
    | none => false
    | some (.Delete _) => false
    | some (.Retain _ a) => a.is_plain
    | some (.Insert _ _) => false
  if remove_last then ⟨d.ops.dropLast⟩ else d

/-- Rust `DeltaBuilder::trim` (`builder.rs` lines 45-48): trim the accumulated
delta in place. -/
def DeltaBuilder.trim (b : DeltaBuilder) : DeltaBuilder := ⟨b.delta.trim⟩

/-- Rust `DeltaBuilder::build` (`builder.rs` line 50): returns the accumulated
delta as is — it performs no trimming. -/
def DeltaBuilder.build (b : DeltaBuilder) : Delta := b.delta

/-! ## View controller (`flowy-core/src/services/view/controller.rs`)

The SQLite store, the key-value store `KV` and the trash set are embedded
as explicit state; the remote server and the spawned tokio tasks are
embedded as explicit outcome parameters, since their results are either
discarded (`let _ = ...` without `?`) or only logged inside the task. -/

/-- The error taxonomy surfaced by the controllers (spec section 7);
only the constructors these claims distinguish. -/
inductive FlowyError where
  | record_not_found
  | unauthorized
  | internal
deriving DecidableEq, Repr

/-- A row of the view table (`ViewTable`). -/
structure ViewTable where
  id : String
  belong_to_id : String
  name : String
  desc : String
deriving DecidableEq, Repr

/-- A `View` as returned to callers; `ViewTable -> View` conversion keeps
these fields. -/
structure View where
  id : String
  belong_to_id : String
  name : String
  desc : String
deriving DecidableEq, Repr

/-- The `impl From<ViewTable> for View` conversion (`view_table.into()`). -/
def ViewTable.into_view (vt : ViewTable) : View :=
  ⟨vt.id, vt.belong_to_id, vt.name, vt.desc⟩

/-- Rust `RepeatedView`: the list of views returned by
`read_views_belong_to`. -/
structure RepeatedView where
  items : List View
deriving DecidableEq, Repr

/-- The controller-visible state: the view table rows, the ids currently
in the trash (`TrashController::read_trash_ids`), and the value stored
under the `LATEST_VIEW_ID` key of the `KV` store. -/
structure ViewDB where
  view_tables : List ViewTable
  trash_ids : List String
  latest_view_id : Option String
deriving DecidableEq, Repr

/-- Rust `ViewTableSql::read_view`: look up a row by id; a missing row is a
record-not-found error. -/
def ViewTableSql.read_view (view_id : String) (tables : List ViewTable) :
    Except FlowyError ViewTable :=
  match tables.find? (fun vt => vt.id = view_id) with
  | none => .error .record_not_found
  | some vt => .ok vt

/-- Rust `ViewTableSql::read_views`: all rows whose `belong_to_id` matches. -/
def ViewTableSql.read_views (belong_to_id : String) (tables : List ViewTable) :
    List ViewTable :=
  tables.filter (fun vt => vt.belong_to_id = belong_to_id)

/-- Rust `ViewController::read_view` (`controller.rs` lines 101-114): read the
row, then fail with `record_not_found` when its id is in the trash set;
the fire-and-forget `read_view_on_server` task does not affect the
returned value. -/
def ViewController.read_view (db : ViewDB) (view_id : String) :
    Except FlowyError View := do
  let view_table ← ViewTableSql.read_view view_id db.view_tables
  if db.trash_ids.contains view_table.id then
    .error .record_not_found
  else
    .ok view_table.into_view

/-- Rust `read_belonging_views_on_local` (`controller.rs` lines 403-418):
read the belonging rows and drop every row whose id is in the trash. -/
def read_belonging_views_on_local (belong_to_id : String) (db : ViewDB) :
    Except FlowyError RepeatedView :=
  let view_tables := ViewTableSql.read_views belong_to_id db.view_tables
  let kept := view_tables.filter (fun vt => !db.trash_ids.contains vt.id)
  .ok ⟨kept.map ViewTable.into_view⟩

/-- Rust `ViewController::read_views_belong_to` (`controller.rs` lines
189-195): delegates to `read_belonging_views_on_local`. -/
def ViewController.read_views_belong_to (db : ViewDB) (belong_to_id : String) :
    Except FlowyError RepeatedView :=
  read_belonging_views_on_local belong_to_id db

/-- Rust `UpdateViewParams`: the changeset payload of `update_view`. -/
structure UpdateViewParams where
  view_id : String
  name : Option String
  desc : Option String
deriving DecidableEq, Repr

/-- Rust `ViewTableChangeset::new` applied to a row: overwrite the fields the
changeset carries (`ViewTableSql::update_view`). -/
def ViewTable.apply_changeset (vt : ViewTable) (params : UpdateViewParams) : ViewTable :=
  { vt with name := params.name.getD vt.name, desc := params.desc.getD vt.desc }

/-- Rust `ViewTableSql::update_view`: update the row with the changeset id. -/
def ViewTableSql.update_view (params : UpdateViewParams) (tables : List ViewTable) :
    List ViewTable :=
  tables.map (fun vt => if vt.id = params.view_id then vt.apply_changeset params else vt)

/-- The local `immediate_transaction` of `update_view` (`controller.rs`
lines 203-207): update the row, then read the updated view back inside
the same transaction. -/
def ViewController.update_view_local (db : ViewDB) (params : UpdateViewParams) :
    Except FlowyError (View × ViewDB) := do
  let tables := ViewTableSql.update_view params db.view_tables
  let view_table ← ViewTableSql.read_view params.view_id tables
  .ok (view_table.into_view, { db with view_tables := tables })

/-- Rust `ViewController::update_view` (`controller.rs` lines 197-216): run
the local transaction, notify, then fire `update_view_on_server` whose
`Result` is discarded (`let _ = ...`, line 214) and whose spawned send
only logs its error (lines 245-259); `server_outcome` stands for that
whole server-side result. -/
def ViewController.update_view (db : ViewDB) (params : UpdateViewParams)
    (server_outcome : Except FlowyError Unit) : Except FlowyError (View × ViewDB) := do
  let (updated_view, db') ← ViewController.update_view_local db params
  let _ := server_outcome
  .ok (updated_view, db')

/-- Rust `ViewController::delete_view` (`controller.rs` lines 148-157): remove
the `LATEST_VIEW_ID` key exactly when it currently holds the deleted
id of the deleted document, then close the document (`close_outcome` stands for
`document_ctx.controller.close`, which is not under `src/`). -/
def ViewController.delete_view (db : ViewDB) (doc_id : String)
    (close_outcome : Except FlowyError Unit) : Except FlowyError ViewDB := do
  let db' :=
    match db.latest_view_id with
    | some view_id => if view_id = doc_id then { db with latest_view_id := none } else db
    | none => db
  let _ ← close_outcome
  .ok db'

/-- Rust `ViewController::latest_visit_view` (`controller.rs` lines 223-232):
read the `LATEST_VIEW_ID` key; absent key means no latest view, else the
stored id is looked up in the view table. -/
def ViewController.latest_visit_view (db : ViewDB) :
    Except FlowyError (Option View) :=
  match db.latest_view_id with
  | none => .ok none
  | some view_id => do
      let view_table ← ViewTableSql.read_view view_id db.view_tables
      .ok (some view_table.into_view)

/-! ## User session (`flowy-user/src/services/user/user_session.rs`)

The in-memory `RwLock<Option<Session>>`, the `KV` cache string and the
`user_table` rows are explicit state; `serde_json` and the remote server
are explicit function/outcome parameters. The spawned
`read_user_profile_on_server` task only sends a notification, so it does
not appear in the returned values. -/

/-- The cached `Session` (`user_session.rs` lines 291-297). -/
structure Session where
  user_id : String
  token : String
  email : String
  name : String
deriving DecidableEq, Repr

/-- Rust `Session::default()`: every field is the empty string. -/
def Session.default : Session := ⟨"", "", "", ""⟩

/-- Rust `impl From<String> for Session` (`user_session.rs` lines 325-335):
deserialize, and on any parse error fall back to `Session::default()`;
`parse` stands for `serde_json::from_str`. -/
def Session.from_string (parse : String → Option Session) (s : String) : Session :=
  match parse s with
  | some sess => sess
  | none => Session.default

/-- A row of `user_table`. -/
structure UserTable where
  id : String
  name : String
  token : String
  email : String
deriving DecidableEq, Repr

/-- The `UserProfile` returned to callers. -/
structure UserProfile where
  id : String
  email : String
  name : String
  token : String
deriving DecidableEq, Repr

/-- The `impl From<UserTable> for UserProfile` conversion. -/
def UserTable.into_profile (u : UserTable) : UserProfile :=
  ⟨u.id, u.email, u.name, u.token⟩

/-- Rust `SignInResponse` (also the model of `SignUpResponse`): the fields a
`Session` is built from. -/
structure SignInResponse where
  user_id : String
  token : String
  email : String
  name : String
deriving DecidableEq, Repr

/-- Rust `impl From<SignInResponse> for Session` (`user_session.rs` lines
299-308). -/
def SignInResponse.into_session (resp : SignInResponse) : Session :=
  ⟨resp.user_id, resp.token, resp.email, resp.name⟩

/-- Rust `impl From<SignInResponse> for UserTable` (constructed in the
`flowy-user` sql tables, outside `src/`): the row saved by `save_user`. -/
def SignInResponse.into_table (resp : SignInResponse) : UserTable :=
  ⟨resp.user_id, resp.name, resp.token, resp.email⟩

/-- Rust `UserSession` state: the in-memory session, the string cached under
`session_cache_key` in `KV`, and the `user_table` rows. -/
structure UserState where
  session : Option Session
  kv : Option String
  users : List UserTable
deriving DecidableEq, Repr

/-- Rust `UserSession::set_session` (`user_session.rs` lines 240-248): clear
or set both the `KV` cache and the in-memory session; `ser` stands for
`serde_json::to_string` in `impl From<Session> for String`. -/
def UserSession.set_session (ser : Session → String) (st : UserState)
    (session : Option Session) : UserState :=
  match session with
  | none => { st with kv := none, session := none }
  | some s => { st with kv := some (ser s), session := some s }

/-- Rust `UserSession::get_session` (`user_session.rs` lines 250-266): return
the in-memory session if present; otherwise restore it from the `KV`
cache via `Session::from(String)` (which never fails) and store it back;
fail with `unauthorized` only when both are absent. -/
def UserSession.get_session (parse : String → Option Session) (ser : Session → String)
    (st : UserState) : Except FlowyError Session × UserState :=
  match st.session with
  | some s => (.ok s, st)
  | none =>
    match st.kv with
    | none => (.error .unauthorized, st)
    | some str =>
        let s := Session.from_string parse str
        (.ok s, UserSession.set_session ser st (some s))

/-- Rust `UserSession::is_login` (`user_session.rs` lines 268-273): the
session exists and its email equals the argument. -/
def UserSession.is_login (parse : String → Option Session) (ser : Session → String)
    (st : UserState) (email : String) : Bool × UserState :=
  match UserSession.get_session parse ser st with
  | (.ok s, st') => (s.email = email, st')
  | (.error _, st') => (false, st')

/-- Rust `UserSession::user_profile` (`user_session.rs` lines 160-168): read
the session, look the user up in `user_table` by `user_id`; the spawned
`read_user_profile_on_server` task does not affect the result. -/
def UserSession.user_profile (parse : String → Option Session) (ser : Session → String)
    (st : UserState) : Except FlowyError UserProfile × UserState :=
  match UserSession.get_session parse ser st with
  | (.error e, st') => (.error e, st')
  | (.ok s, st') =>
    match st'.users.find? (fun u => u.id = s.user_id) with
    | none => (.error .record_not_found, st')
    | some u => (.ok u.into_profile, st')

/-- Rust `UserSession::save_user` (`user_session.rs` lines 232-238): insert
the row into `user_table`. -/
def UserSession.save_user (st : UserState) (user : UserTable) : UserTable × UserState :=
  (user, { st with users := st.users ++ [user] })

/-- Rust `UserSession::sign_in` (`user_session.rs` lines 91-104): if already
logged in with this email, return the existing profile; otherwise ask the
server (`server_resp` stands for `server.sign_in`), set the session and
save the user. -/
def UserSession.sign_in (parse : String → Option Session) (ser : Session → String)
    (st : UserState) (email : String) (server_resp : Except FlowyError SignInResponse) :
    Except FlowyError UserProfile × UserState :=
  match UserSession.is_login parse ser st email with
  | (true, st') => UserSession.user_profile parse ser st'
  | (false, st') =>
    match server_resp with
    | .error e => (.error e, st')
    | .ok resp =>
        let st1 := UserSession.set_session ser st' (some resp.into_session)
        let (user_table, st2) := UserSession.save_user st1 resp.into_table
        (.ok user_table.into_profile, st2)

/-- Rust `UserSession::sign_up` (`user_session.rs` lines 106-122): same
structure as `sign_in`; the sign-up notifier channel only blocks, it does
not change the returned value or the state. -/
def UserSession.sign_up (parse : String → Option Session) (ser : Session → String)
    (st : UserState) (email : String) (server_resp : Except FlowyError SignInResponse) :
    Except FlowyError UserProfile × UserState :=
  match UserSession.is_login parse ser st email with
  | (true, st') => UserSession.user_profile parse ser st'
  | (false, st') =>
    match server_resp with
    | .error e => (.error e, st')
    | .ok resp =>
        let st1 := UserSession.set_session ser st' (some resp.into_session)
        let (user_table, st2) := UserSession.save_user st1 resp.into_table
        (.ok user_table.into_profile, st2)

/-! ## Theorems about the delta builder -/

/-- C1 (counterexample): accumulate a single plain `Retain 1` through the
builder; `build()` returns the delta with that trailing plain Retain
still in last position, and the result differs from its trimmed form, so
`build()` does not remove a trailing plain Retain. -/
theorem C1_build_does_not_trim_counterexample :
    ((DeltaBuilder.new.retain 1).build).ops.getLast? = some (Operation.Retain 1 []) ∧
    (DeltaBuilder.new.retain 1).build ≠ ((DeltaBuilder.new.retain 1).build).trim := by
  decide

/-- C1 (amended): `build()` returns the accumulated delta unchanged; it
is the trim method of the builder that removes one trailing plain Retain, so
whenever the last appended operation is a plain Retain, `trim().build()`
returns the delta with that last operation removed. -/
theorem C1_trim_before_build_removes_trailing_plain_retain (b : DeltaBuilder) (n : Nat)
    (a : Attrs) (h : b.delta.ops.getLast? = some (Operation.Retain n a))
    (hp : a.is_plain = true) :
    b.build = b.delta ∧ b.trim.build.ops = b.delta.ops.dropLast := by
  refine ⟨rfl, ?_⟩
  simp [DeltaBuilder.trim, DeltaBuilder.build, Delta.trim, h, hp]

/-- C1 (witness): the amended statement evaluated on the builder that
accumulated one plain `Retain 2`. -/
theorem C1_trim_before_build_removes_trailing_plain_retain_witness :
    (DeltaBuilder.new.retain 2).build = (DeltaBuilder.new.retain 2).delta ∧
    (DeltaBuilder.new.retain 2).trim.build.ops = (DeltaBuilder.new.retain 2).delta.ops.dropLast :=
  C1_trim_before_build_removes_trailing_plain_retain (DeltaBuilder.new.retain 2) 2 []
    (by decide) (by decide)

/-- C3: the merge rules of the builder on every append (the underlying
`Delta::retain/insert/delete` are modelled from the spec): a Retain after
a Retain with identical attributes merges with summed length; an Insert
after an Insert with identical attributes merges; a Delete after a Delete
merges; a Delete after an Insert and an Insert after a Delete stay
distinct, in order. -/
theorem C3_builder_merge_rules (ops : List Operation) (n m : Nat) (a : Attrs) (s t : String)
    (hn : n ≠ 0) (hs : s ≠ "") :
    (DeltaBuilder.mk ⟨ops ++ [Operation.Retain m a]⟩).retain_with_attributes n a
      = DeltaBuilder.mk ⟨ops ++ [Operation.Retain (m + n) a]⟩ ∧
    (DeltaBuilder.mk ⟨ops ++ [Operation.Insert t a]⟩).insert_with_attributes s a
      = DeltaBuilder.mk ⟨ops ++ [Operation.Insert (t ++ s) a]⟩ ∧
    (DeltaBuilder.mk ⟨ops ++ [Operation.Delete m]⟩).delete n
      = DeltaBuilder.mk ⟨ops ++ [Operation.Delete (m + n)]⟩ ∧
    (DeltaBuilder.mk ⟨ops ++ [Operation.Insert t a]⟩).delete n
      = DeltaBuilder.mk ⟨ops ++ [Operation.Insert t a, Operation.Delete n]⟩ ∧
    (DeltaBuilder.mk ⟨ops ++ [Operation.Delete m]⟩).insert_with_attributes s a
      = DeltaBuilder.mk ⟨ops ++ [Operation.Delete m, Operation.Insert s a]⟩ := by
  refine ⟨?_, ?_, ?_, ?_, ?_⟩ <;>
    simp [DeltaBuilder.retain_with_attributes, DeltaBuilder.insert_with_attributes,
      DeltaBuilder.delete, Delta.retain, Delta.insert, Delta.delete, hn, hs,
      List.getLast?_concat, List.dropLast_concat]

/-- C3 (witness): the merge rules evaluated on concrete one-operation
deltas. -/
theorem C3_builder_merge_rules_witness :
    (DeltaBuilder.mk ⟨[Operation.Retain 2 []]⟩).retain_with_attributes 1 []
      = DeltaBuilder.mk ⟨[Operation.Retain 3 []]⟩ ∧
    (DeltaBuilder.mk ⟨[Operation.Insert "x" []]⟩).insert_with_attributes "y" []
      = DeltaBuilder.mk ⟨[Operation.Insert "xy" []]⟩ ∧
    (DeltaBuilder.mk ⟨[Operation.Delete 2]⟩).delete 1
      = DeltaBuilder.mk ⟨[Operation.Delete 3]⟩ ∧
    (DeltaBuilder.mk ⟨[Operation.Insert "x" []]⟩).delete 1
      = DeltaBuilder.mk ⟨[Operation.Insert "x" [], Operation.Delete 1]⟩ ∧
    (DeltaBuilder.mk ⟨[Operation.Delete 2]⟩).insert_with_attributes "y" []
      = DeltaBuilder.mk ⟨[Operation.Delete 2, Operation.Insert "y" []]⟩ :=
  C3_builder_merge_rules [] 1 2 [] "y" "x" (by decide) (by decide)

/-- C4: `trim` removes the last operation exactly when it is a plain
Retain; a trailing attributed Retain, a trailing Insert, a trailing
Delete and the empty delta are unchanged, and `trim` removes at most one
operation. -/
theorem C4_trim_last_op_cases (ops : List Operation) (n m : Nat) (a a2 : Attrs)
    (s : String) (d : Delta) :
    (Delta.mk (ops ++ [Operation.Retain n a])).trim
      = (if a.is_plain then Delta.mk ops else Delta.mk (ops ++ [Operation.Retain n a])) ∧
    (Delta.mk (ops ++ [Operation.Insert s a2])).trim
      = Delta.mk (ops ++ [Operation.Insert s a2]) ∧
    (Delta.mk (ops ++ [Operation.Delete m])).trim = Delta.mk (ops ++ [Operation.Delete m]) ∧
    (Delta.mk []).trim = Delta.mk [] ∧
    (d.trim = d ∨ d.trim.ops = d.ops.dropLast) := by
  refine ⟨?_, ?_, ?_, rfl, ?_⟩
  · cases hp : a.is_plain <;>
      simp [Delta.trim, List.getLast?_concat, List.dropLast_concat, hp]
  · simp [Delta.trim, List.getLast?_concat]
  · simp [Delta.trim, List.getLast?_concat]
  · rcases hL : d.ops.getLast? with _ | op
    · left
      simp [Delta.trim, hL]
    · cases op with
      | Delete k => left; simp [Delta.trim, hL]
      | Insert s2 b2 => left; simp [Delta.trim, hL]
      | Retain k b2 =>
        cases hp : b2.is_plain
        · left; simp [Delta.trim, hL, hp]
        · right; simp [Delta.trim, hL, hp]

/-- An operation is a plain Retain: a Retain whose attributes are
empty (the kind of operation `trim` removes). -/
def Operation.is_plain_retain : Operation → Bool
  | .Retain _ a => a.is_plain
  | _ => false

/-- The canonical-merge precondition of C2: no two adjacent operations
are plain Retains. -/
def no_adjacent_plain_retains : List Operation → Bool
  | [] => true
  | [_] => true
  | a :: b :: rest =>
      (!(a.is_plain_retain && b.is_plain_retain)) && no_adjacent_plain_retains (b :: rest)

/-- In a list with no two adjacent plain Retains, the last operation and
the one before it are not both plain Retains. -/
theorem no_adjacent_plain_retains_getLast (l : List Operation) (x y : Operation)
    (h : no_adjacent_plain_retains l = true)
    (hx : l.getLast? = some x) (hy : l.dropLast.getLast? = some y) :
    (y.is_plain_retain && x.is_plain_retain) = false := by
  induction l generalizing x y with
  | nil => simp at hx
  | cons a rest ih =>
    cases rest with
    | nil => simp at hy
    | cons b rest2 =>
      have h2 : ((!(a.is_plain_retain && b.is_plain_retain))
          && no_adjacent_plain_retains (b :: rest2)) = true := h
      obtain ⟨hnot, hrest⟩ := Bool.and_eq_true_iff.mp h2
      have hab : (a.is_plain_retain && b.is_plain_retain) = false := by
        cases hq : (a.is_plain_retain && b.is_plain_retain)
        · rfl
        · rw [hq] at hnot; simp at hnot
      rw [List.getLast?_cons_cons] at hx
      cases rest2 with
      | nil =>
        have hxb : x = b := by simpa using hx.symm
        have hya : y = a := by simpa using hy.symm
        rw [hxb, hya]
        exact hab
      | cons c rest3 =>
        have hdl : (a :: b :: c :: rest3).dropLast
            = a :: b :: (c :: rest3).dropLast := rfl
        rw [hdl, List.getLast?_cons_cons] at hy
        exact ih _ _ hrest hx hy

/-- C2: on every delta in which no two adjacent operations are plain
Retains, `trim` is idempotent: trimming twice yields the same delta as
trimming once. -/
theorem C2_trim_idempotent (d : Delta) (h : no_adjacent_plain_retains d.ops = true) :
    d.trim.trim = d.trim := by
  rcases hL : d.ops.getLast? with _ | op
  · have hd : d.trim = d := by simp [Delta.trim, hL]
    rw [hd, hd]
  · cases op with
    | Delete k =>
      have hd : d.trim = d := by simp [Delta.trim, hL]
      rw [hd, hd]
    | Insert s a =>
      have hd : d.trim = d := by simp [Delta.trim, hL]
      rw [hd, hd]
    | Retain k a =>
      cases hp : a.is_plain
      · have hd : d.trim = d := by simp [Delta.trim, hL, hp]
        rw [hd, hd]
      · have hd : d.trim = Delta.mk d.ops.dropLast := by simp [Delta.trim, hL, hp]
        rw [hd]
        rcases hL2 : d.ops.dropLast.getLast? with _ | op2
        · simp [Delta.trim, hL2]
        · have hfalse := no_adjacent_plain_retains_getLast d.ops _ _ h hL hL2
          have hop2 : op2.is_plain_retain = false := by
            cases hq : op2.is_plain_retain
            · rfl
            · rw [hq] at hfalse
              simp [Operation.is_plain_retain, hp] at hfalse
          cases op2 with
          | Delete k2 => simp [Delta.trim, hL2]
          | Insert s2 a2 => simp [Delta.trim, hL2]
          | Retain k2 a2 =>
            have ha2 : a2.is_plain = false := by
              simpa [Operation.is_plain_retain] using hop2
            simp [Delta.trim, hL2, ha2]

/-- C2 (witness): idempotence evaluated on the canonical delta
`insert "a" + retain 1`. -/
theorem C2_trim_idempotent_witness :
    (Delta.mk [Operation.Insert "a" [], Operation.Retain 1 []]).trim.trim
      = (Delta.mk [Operation.Insert "a" [], Operation.Retain 1 []]).trim :=
  C2_trim_idempotent (Delta.mk [Operation.Insert "a" [], Operation.Retain 1 []]) (by decide)

/-- The length invariant of spec section 3: every operation of a delta
has length at least 1. -/
def Delta.min_len_invariant (d : Delta) : Prop := ∀ op ∈ d.ops, 1 ≤ op.len

instance (d : Delta) : Decidable d.min_len_invariant := by
  unfold Delta.min_len_invariant
  infer_instance

/-- A nonempty string has length at least 1. -/
theorem one_le_length_of_ne_empty (s : String) (h : s ≠ "") : 1 ≤ s.length := by
  rcases s with ⟨data⟩
  cases data with
  | nil => exact absurd rfl h
  | cons c cs => simp [String.length]

/-- Appending one operation of length at least 1 preserves the length
invariant. -/
theorem min_len_append_of (l : List Operation) (x : Operation)
    (hl : ∀ op ∈ l, 1 ≤ op.len) (hx : 1 ≤ x.len) :
    ∀ op ∈ l ++ [x], 1 ≤ op.len := by
  intro op hop
  rcases List.mem_append.mp hop with h1 | h1
  · exact hl op h1
  · rw [List.mem_singleton.mp h1]
    exact hx

/-- Rust `Delta.retain` preserves the length invariant. -/
theorem Delta.retain_min_len (d : Delta) (n : Nat) (a : Attrs)
    (hinv : d.min_len_invariant) : (d.retain n a).min_len_invariant := by
  intro op hop
  unfold Delta.retain at hop
  by_cases hn : n = 0
  · rw [if_pos hn] at hop
    exact hinv op hop
  · rw [if_neg hn] at hop
    have hlen : 1 ≤ (Operation.Retain n a).len := by
      simp [Operation.len]
      omega
    split at hop
    · next m a2 heq =>
        split at hop
        · next ha =>
            simp only [List.mem_append, List.mem_singleton] at hop
            rcases hop with h1 | h1
            · exact hinv op (List.mem_of_mem_dropLast h1)
            · subst h1
              simp [Operation.len]
              omega
        · next ha =>
            simp only [List.mem_append, List.mem_singleton] at hop
            rcases hop with h1 | h1
            · exact hinv op h1
            · subst h1
              exact hlen
    · next heq =>
        simp only [List.mem_append, List.mem_singleton] at hop
        rcases hop with h1 | h1
        · exact hinv op h1
        · subst h1
          exact hlen

/-- Rust `Delta.delete` preserves the length invariant. -/
theorem Delta.delete_min_len (d : Delta) (n : Nat)
    (hinv : d.min_len_invariant) : (d.delete n).min_len_invariant := by
  intro op hop
  unfold Delta.delete at hop
  by_cases hn : n = 0
  · rw [if_pos hn] at hop
    exact hinv op hop
  · rw [if_neg hn] at hop
    have hlen : 1 ≤ (Operation.Delete n).len := by
      simp [Operation.len]
      omega
    split at hop
    · next m heq =>
        simp only [List.mem_append, List.mem_singleton] at hop
        rcases hop with h1 | h1
        · exact hinv op (List.mem_of_mem_dropLast h1)
        · subst h1
          simp [Operation.len]
          omega
    · next heq =>
        simp only [List.mem_append, List.mem_singleton] at hop
        rcases hop with h1 | h1
        · exact hinv op h1
        · subst h1
          exact hlen

/-- Rust `Delta.insert` preserves the length invariant. -/
theorem Delta.insert_min_len (d : Delta) (s : String) (a : Attrs)
    (hinv : d.min_len_invariant) : (d.insert s a).min_len_invariant := by
  intro op hop
  unfold Delta.insert at hop
  by_cases hs : s = ""
  · rw [if_pos hs] at hop
    exact hinv op hop
  · rw [if_neg hs] at hop
    have hlen : 1 ≤ (Operation.Insert s a).len :=
      one_le_length_of_ne_empty s hs
    split at hop
    · next t a2 heq =>
        split at hop
        · next ha =>
            simp only [List.mem_append, List.mem_singleton] at hop
            rcases hop with h1 | h1
            · exact hinv op (List.mem_of_mem_dropLast h1)
            · subst h1
              have := one_le_length_of_ne_empty s hs
              simp [Operation.len, String.length_append]
              omega
        · next ha =>
            simp only [List.mem_append, List.mem_singleton] at hop
            rcases hop with h1 | h1
            · exact hinv op h1
            · subst h1
              exact hlen
    · next heq =>
        simp only [List.mem_append, List.mem_singleton] at hop
        rcases hop with h1 | h1
        · exact hinv op h1
        · subst h1
          exact hlen

/-- C5: through the builder, `retain`, `delete` and `insert` with a
length argument of 0 (the empty string for insert) are no-ops (the
underlying `Delta::retain/insert/delete` are modelled from the spec),
and every append preserves the invariant that each operation has length
at least 1. -/
theorem C5_zero_length_noop_and_min_len (b : DeltaBuilder) (a : Attrs) (n : Nat) (s : String)
    (hinv : b.delta.min_len_invariant) :
    b.retain 0 = b ∧ b.retain_with_attributes 0 a = b ∧ b.delete 0 = b ∧
    b.insert "" = b ∧ b.insert_with_attributes "" a = b ∧
    (b.retain_with_attributes n a).delta.min_len_invariant ∧
    (b.delete n).delta.min_len_invariant ∧
    (b.insert_with_attributes s a).delta.min_len_invariant :=
  ⟨rfl, rfl, rfl, rfl, rfl,
    Delta.retain_min_len b.delta n a hinv,
    Delta.delete_min_len b.delta n hinv,
    Delta.insert_min_len b.delta s a hinv⟩

/-- C5 (witness): evaluated on the builder holding `insert "x"`. -/
theorem C5_zero_length_noop_and_min_len_witness :
    (DeltaBuilder.mk ⟨[Operation.Insert "x" []]⟩).retain 0
      = DeltaBuilder.mk ⟨[Operation.Insert "x" []]⟩ ∧
    (DeltaBuilder.mk ⟨[Operation.Insert "x" []]⟩).retain_with_attributes 0 []
      = DeltaBuilder.mk ⟨[Operation.Insert "x" []]⟩ ∧
    (DeltaBuilder.mk ⟨[Operation.Insert "x" []]⟩).delete 0
      = DeltaBuilder.mk ⟨[Operation.Insert "x" []]⟩ ∧
    (DeltaBuilder.mk ⟨[Operation.Insert "x" []]⟩).insert ""
      = DeltaBuilder.mk ⟨[Operation.Insert "x" []]⟩ ∧
    (DeltaBuilder.mk ⟨[Operation.Insert "x" []]⟩).insert_with_attributes "" []
      = DeltaBuilder.mk ⟨[Operation.Insert "x" []]⟩ ∧
    ((DeltaBuilder.mk ⟨[Operation.Insert "x" []]⟩).retain_with_attributes 2 []).delta.min_len_invariant ∧
    ((DeltaBuilder.mk ⟨[Operation.Insert "x" []]⟩).delete 2).delta.min_len_invariant ∧
    ((DeltaBuilder.mk ⟨[Operation.Insert "x" []]⟩).insert_with_attributes "y" []).delta.min_len_invariant :=
  C5_zero_length_noop_and_min_len (DeltaBuilder.mk ⟨[Operation.Insert "x" []]⟩) [] 2 "y"
    (by decide)

/-! ## Theorems about the view controller and the user session -/

/-- C6: a view whose id is in the trash set is never returned:
`read_view` on it fails with a record-not-found error, and every view
returned by `read_views_belong_to` has an id outside the trash set. -/
theorem C6_trashed_view_never_returned (db : ViewDB) (view_id belong_to_id : String)
    (rv : RepeatedView) (v : View)
    (htrash : db.trash_ids.contains view_id = true)
    (hrv : ViewController.read_views_belong_to db belong_to_id = .ok rv)
    (hv : v ∈ rv.items) :
    ViewController.read_view db view_id = .error .record_not_found ∧
    db.trash_ids.contains v.id = false := by
  constructor
  · unfold ViewController.read_view ViewTableSql.read_view
    rcases hf : db.view_tables.find? (fun vt => vt.id = view_id) with _ | vt
    · rw [hf]
      rfl
    · have hid : vt.id = view_id := by simpa using List.find?_some hf
      rw [hf]
      show (if db.trash_ids.contains vt.id = true then Except.error FlowyError.record_not_found
          else Except.ok vt.into_view) = Except.error FlowyError.record_not_found
      rw [hid, htrash]
      simp
  · have hrv' : rv = ⟨((ViewTableSql.read_views belong_to_id db.view_tables).filter
        (fun vt => !db.trash_ids.contains vt.id)).map ViewTable.into_view⟩ := by
      unfold ViewController.read_views_belong_to read_belonging_views_on_local at hrv
      exact (Except.ok.inj hrv).symm
    rw [hrv'] at hv
    simp only [List.mem_map] at hv
    obtain ⟨vt, hvt, hveq⟩ := hv
    rw [List.mem_filter] at hvt
    have hnot : (!db.trash_ids.contains vt.id) = true := hvt.2
    have hfalse : db.trash_ids.contains vt.id = false := by
      cases hq : db.trash_ids.contains vt.id
      · rfl
      · rw [hq] at hnot
        simp at hnot
    rw [← hveq]
    exact hfalse

/-- C6 (witness): a store holding views `v1` (trashed) and `v2`; reading
`v1` fails with record-not-found and the belonging list only yields
`v2`, which is not trashed. -/
theorem C6_trashed_view_never_returned_witness :
    ViewController.read_view
      ⟨[⟨"v1", "app", "n1", "d1"⟩, ⟨"v2", "app", "n2", "d2"⟩], ["v1"], none⟩ "v1"
      = .error .record_not_found ∧
    (["v1"] : List String).contains "v2" = false :=
  C6_trashed_view_never_returned
    ⟨[⟨"v1", "app", "n1", "d1"⟩, ⟨"v2", "app", "n2", "d2"⟩], ["v1"], none⟩
    "v1" "app" ⟨[⟨"v2", "app", "n2", "d2"⟩]⟩ ⟨"v2", "app", "n2", "d2"⟩
    (by rfl) (by rfl) (by simp)

/-- C7: `update_view` returns the locally updated view (read back inside
the transaction) whenever the local update succeeds, and its result does
not depend on the server-side outcome, whose `Result` is discarded. -/
theorem C7_update_view_independent_of_server (db : ViewDB) (params : UpdateViewParams)
    (r r2 : Except FlowyError Unit) (v : View) (db2 : ViewDB)
    (h : ViewController.update_view_local db params = .ok (v, db2)) :
    ViewController.update_view db params r = ViewController.update_view db params r2 ∧
    ViewController.update_view db params r = .ok (v, db2) := by
  unfold ViewController.update_view
  rw [h]
  exact ⟨rfl, rfl⟩

/-- C7 (witness): renaming view `v1` succeeds locally and the result is
the same whether the server update fails or succeeds. -/
theorem C7_update_view_independent_of_server_witness :
    ViewController.update_view ⟨[⟨"v1", "app", "old", "d"⟩], [], none⟩
        ⟨"v1", some "new", none⟩ (.error .internal)
      = ViewController.update_view ⟨[⟨"v1", "app", "old", "d"⟩], [], none⟩
        ⟨"v1", some "new", none⟩ (.ok ()) ∧
    ViewController.update_view ⟨[⟨"v1", "app", "old", "d"⟩], [], none⟩
        ⟨"v1", some "new", none⟩ (.error .internal)
      = .ok (⟨"v1", "app", "new", "d"⟩, ⟨[⟨"v1", "app", "new", "d"⟩], [], none⟩) :=
  C7_update_view_independent_of_server ⟨[⟨"v1", "app", "old", "d"⟩], [], none⟩
    ⟨"v1", some "new", none⟩ (.error .internal) (.ok ())
    ⟨"v1", "app", "new", "d"⟩ ⟨[⟨"v1", "app", "new", "d"⟩], [], none⟩ (by rfl)

/-- C8: `Session::from(String)` is total: on any string the parser
rejects it returns `Session::default()` (all fields empty), and
`get_session` then succeeds with that default session instead of
returning an unauthorized error. -/
theorem C8_session_from_string_defaults (parse : String → Option Session)
    (ser : Session → String) (s str : String) (st : UserState)
    (hp : parse s = none) (hmem : st.session = none) (hkv : st.kv = some str)
    (hstr : parse str = none) :
    Session.from_string parse s = Session.default ∧
    (UserSession.get_session parse ser st).1 = .ok Session.default := by
  constructor
  · unfold Session.from_string
    rw [hp]
  · unfold UserSession.get_session
    rw [hmem, hkv]
    simp [Session.from_string, hstr]

/-- C8 (witness): a corrupted cache string with a parser that rejects
everything yields the default session from `get_session`. -/
theorem C8_session_from_string_defaults_witness :
    Session.from_string (fun _ => none) "x" = Session.default ∧
    (UserSession.get_session (fun _ => none) (fun _ => "")
        ⟨none, some "corrupt", []⟩).1 = .ok Session.default :=
  C8_session_from_string_defaults (fun _ => none) (fun _ => "") "x" "corrupt"
    ⟨none, some "corrupt", []⟩ rfl rfl rfl rfl

/-- C9: when the in-memory session exists and its email equals the
email of the parameters, `sign_in` and `sign_up` leave the whole state
unchanged (no `set_session`, no `save_user`) and return the existing
user profile. -/
theorem C9_sign_in_sign_up_noop_when_logged_in (parse : String → Option Session)
    (ser : Session → String) (st : UserState) (email : String)
    (resp : Except FlowyError SignInResponse) (s : Session) (u : UserTable)
    (hmem : st.session = some s) (hemail : s.email = email)
    (huser : st.users.find? (fun x => x.id = s.user_id) = some u) :
    UserSession.sign_in parse ser st email resp = (.ok u.into_profile, st) ∧
    UserSession.sign_up parse ser st email resp = (.ok u.into_profile, st) := by
  have hget : UserSession.get_session parse ser st = (.ok s, st) := by
    unfold UserSession.get_session
    rw [hmem]
  have hlog : UserSession.is_login parse ser st email = (true, st) := by
    unfold UserSession.is_login
    rw [hget]
    simp [hemail]
  have hprof : UserSession.user_profile parse ser st = (.ok u.into_profile, st) := by
    unfold UserSession.user_profile
    rw [hget]
    simp [huser]
  constructor
  · unfold UserSession.sign_in
    rw [hlog]
    exact hprof
  · unfold UserSession.sign_up
    rw [hlog]
    exact hprof

/-- C9 (witness): a user already logged in as `e@x`; `sign_in` and
`sign_up` with that email return the stored profile and leave the state
untouched even though the server would fail. -/
theorem C9_sign_in_sign_up_noop_when_logged_in_witness :
    UserSession.sign_in (fun _ => none) (fun _ => "")
        ⟨some ⟨"u1", "t", "e@x", "n"⟩, none, [⟨"u1", "n", "t", "e@x"⟩]⟩ "e@x"
        (.error .internal)
      = (.ok ⟨"u1", "e@x", "n", "t"⟩,
          ⟨some ⟨"u1", "t", "e@x", "n"⟩, none, [⟨"u1", "n", "t", "e@x"⟩]⟩) ∧
    UserSession.sign_up (fun _ => none) (fun _ => "")
        ⟨some ⟨"u1", "t", "e@x", "n"⟩, none, [⟨"u1", "n", "t", "e@x"⟩]⟩ "e@x"
        (.error .internal)
      = (.ok ⟨"u1", "e@x", "n", "t"⟩,
          ⟨some ⟨"u1", "t", "e@x", "n"⟩, none, [⟨"u1", "n", "t", "e@x"⟩]⟩) :=
  C9_sign_in_sign_up_noop_when_logged_in (fun _ => none) (fun _ => "")
    ⟨some ⟨"u1", "t", "e@x", "n"⟩, none, [⟨"u1", "n", "t", "e@x"⟩]⟩ "e@x"
    (.error .internal) ⟨"u1", "t", "e@x", "n"⟩ ⟨"u1", "n", "t", "e@x"⟩
    rfl rfl (by rfl)

/-- C10: `delete_view` removes the stored latest-view-id key exactly when
it equals the id of the deleted document, leaving a pointer to any other view
unchanged; consequently `latest_visit_view` never returns the deleted
view afterwards. -/
theorem C10_delete_view_latest_pointer (db : ViewDB) (doc_id : String)
    (close_outcome : Except FlowyError Unit) (db2 : ViewDB) (v : View)
    (h : ViewController.delete_view db doc_id close_outcome = .ok db2) :
    (db2.latest_view_id
      = if db.latest_view_id = some doc_id then none else db.latest_view_id) ∧
    (ViewController.latest_visit_view db2 = .ok (some v) → v.id ≠ doc_id) := by
  have hdb2 : db2 = (match db.latest_view_id with
      | some view_id => if view_id = doc_id then { db with latest_view_id := none } else db
      | none => db) := by
    unfold ViewController.delete_view at h
    cases close_outcome with
    | error e =>
        exfalso
        have h2 : (Except.error e : Except FlowyError ViewDB) = Except.ok db2 := h
        cases h2
    | ok u =>
        have h2 : Except.ok (match db.latest_view_id with
            | some view_id =>
                if view_id = doc_id then { db with latest_view_id := none } else db
            | none => db) = Except.ok db2 := h
        exact (Except.ok.inj h2).symm
  have hpointer : db2.latest_view_id
      = if db.latest_view_id = some doc_id then none else db.latest_view_id := by
    rw [hdb2]
    cases hL : db.latest_view_id with
    | none => simp [hL]
    | some vid =>
      by_cases hvd : vid = doc_id
      · subst hvd
        simp [hL]
      · simp [hL, hvd]
  refine ⟨hpointer, ?_⟩
  intro hv
  rcases hL2 : db2.latest_view_id with _ | vid2
  · unfold ViewController.latest_visit_view at hv
    rw [hL2] at hv
    have h2 : (Except.ok (none : Option View) : Except FlowyError (Option View))
        = Except.ok (some v) := hv
    exact absurd (Except.ok.inj h2) (by simp)
  · have hvid2 : vid2 ≠ doc_id := by
      rw [hL2] at hpointer
      cases hL : db.latest_view_id with
      | none =>
        rw [hL] at hpointer
        simp at hpointer
      | some vid =>
        rw [hL] at hpointer
        by_cases hvd : vid = doc_id
        · subst hvd
          simp at hpointer
        · have hne : some vid ≠ some doc_id := by
            intro hcon
            exact hvd (Option.some.inj hcon)
          rw [if_neg hne] at hpointer
          intro hcon
          rw [hcon] at hpointer
          exact hvd (Option.some.inj hpointer).symm
    unfold ViewController.latest_visit_view at hv
    rw [hL2] at hv
    have hv2 : (do
        let view_table ← ViewTableSql.read_view vid2 db2.view_tables
        Except.ok (some view_table.into_view)) = Except.ok (some v) := hv
    rcases hf : db2.view_tables.find? (fun vt => vt.id = vid2) with _ | vt
    · unfold ViewTableSql.read_view at hv2
      rw [hf] at hv2
      exfalso
      have h2 : (Except.error FlowyError.record_not_found :
          Except FlowyError (Option View)) = Except.ok (some v) := hv2
      cases h2
    · have hid : vt.id = vid2 := by simpa using List.find?_some hf
      unfold ViewTableSql.read_view at hv2
      rw [hf] at hv2
      have h2 : (Except.ok (some vt.into_view) : Except FlowyError (Option View))
          = Except.ok (some v) := hv2
      have hveq : vt.into_view = v := Option.some.inj (Except.ok.inj h2)
      rw [← hveq]
      show vt.id ≠ doc_id
      rw [hid]
      exact hvid2

/-- C10 (witness): deleting document `v1` while the latest-view key
points at `v2` leaves the pointer unchanged, and the latest visited view
is `v2`, not the deleted `v1`. -/
theorem C10_delete_view_latest_pointer_witness :
    ((⟨[⟨"v2", "app", "n", "d"⟩], [], some "v2"⟩ : ViewDB).latest_view_id
      = if (⟨[⟨"v2", "app", "n", "d"⟩], [], some "v2"⟩ : ViewDB).latest_view_id
          = some "v1" then none
        else (⟨[⟨"v2", "app", "n", "d"⟩], [], some "v2"⟩ : ViewDB).latest_view_id) ∧
    (ViewController.latest_visit_view ⟨[⟨"v2", "app", "n", "d"⟩], [], some "v2"⟩
        = .ok (some ⟨"v2", "app", "n", "d"⟩) → ("v2" : String) ≠ "v1") :=
  C10_delete_view_latest_pointer ⟨[⟨"v2", "app", "n", "d"⟩], [], some "v2"⟩ "v1"
    (.ok ()) ⟨[⟨"v2", "app", "n", "d"⟩], [], some "v2"⟩ ⟨"v2", "app", "n", "d"⟩ (by rfl)
